import Mathlib

/-!
Verification development for the VM state reconciliation engine of the
kubevirt-service-provider repository: the spec mapper
(internal/kubevirt/mapper.go), the phase normalizer
(internal/monitor/phase.go), the informer-based monitor event handler and
the per-VM status synchronization service.

Go strings are modelled as Lean strings.  The Go standard-library string
functions used by the source are modelled on the ASCII alphabet, which is
the alphabet the source feeds them.  Machine integers are modelled as Int
with explicit range checks where the source's behavior depends on them.
-/

namespace KVSP

/-- Model of Go strings.TrimSpace, trimming ASCII whitespace from both
ends of the string. -/
def goTrimSpace (s : String) : String :=
  ⟨((s.data.dropWhile Char.isWhitespace).reverse.dropWhile Char.isWhitespace).reverse⟩

/-- Model of Go strings.ToUpper on ASCII input. -/
def goToUpper (s : String) : String :=
  ⟨s.data.map Char.toUpper⟩

/-- Model of Go strings.ToLower on ASCII input. -/
def goToLower (s : String) : String :=
  ⟨s.data.map Char.toLower⟩

/-- Model of Go strings.HasSuffix. -/
def goHasSuffix (s suffix : String) : Bool :=
  suffix.data.isSuffixOf s.data

/-- Model of Go strings.TrimSuffix: drops the suffix when present,
otherwise returns the string unchanged. -/
def goTrimSuffix (s suffix : String) : String :=
  if goHasSuffix s suffix then ⟨s.data.take (s.data.length - suffix.data.length)⟩ else s

/-- Model of Go strings.Contains: the second string occurs as a
contiguous substring of the first. -/
def goContains (s sub : String) : Bool :=
  s.data.tails.any (fun t => sub.data.isPrefixOf t)

/-- The numeric value of an ASCII digit character, if it is one. -/
def charToDigit (c : Char) : Option Nat :=
  if 48 ≤ c.toNat ∧ c.toNat ≤ 57 then some (c.toNat - 48) else none

/-- The ASCII digit character of a value below ten. -/
def digitToChar (d : Nat) : Char :=
  Char.ofNat (48 + d)

/-- Accumulating decimal parse of a digit-character list. -/
def parseNatDigitsAux : List Char → Nat → Option Nat
  | [], acc => some acc
  | c :: rest, acc =>
    match charToDigit c with
    | some d => parseNatDigitsAux rest (10 * acc + d)
    | none => none

/-- Decimal parse of a nonempty digit-character list. -/
def parseNatDigits : List Char → Option Nat
  | [] => none
  | c :: rest => parseNatDigitsAux (c :: rest) 0

/-- Little-endian decimal digits of a positive number; the first argument
is fuel that makes the recursion structural. -/
def natDigitsRevAux : Nat → Nat → List Nat
  | 0, _ => []
  | _ + 1, 0 => []
  | fuel + 1, n + 1 => (n + 1) % 10 :: natDigitsRevAux fuel ((n + 1) / 10)

/-- Value of a little-endian digit list. -/
def ofDigitsRev : List Nat → Nat
  | [] => 0
  | d :: rest => d + 10 * ofDigitsRev rest

/-- Decimal character rendering of a natural number. -/
def natToChars (n : Nat) : List Char :=
  if n = 0 then ['0'] else (natDigitsRevAux n n).reverse.map digitToChar

/-- Model of Go fmt.Sprintf with a %d verb on an integer. -/
def goItoa (n : Int) : String :=
  if n < 0 then ⟨'-' :: natToChars (-n).toNat⟩ else ⟨natToChars n.toNat⟩

/-- Sign-aware decimal parse of a character list (no range check). -/
def goParseIntRaw (l : List Char) : Option Int :=
  match l with
  | [] => none
  | c :: rest =>
    if c = '+' then (parseNatDigits rest).map Int.ofNat
    else if c = '-' then (parseNatDigits rest).map (fun n => -(n : Int))
    else (parseNatDigits (c :: rest)).map Int.ofNat

/-- Model of Go strconv.ParseInt(s, 10, 64) and strconv.Atoi on 64-bit
platforms: decimal parse with the int64 range check. -/
def goParseInt64 (s : String) : Option Int :=
  match goParseIntRaw s.data with
  | none => none
  | some v => if -(2 ^ 63) ≤ v ∧ v ≤ 2 ^ 63 - 1 then some v else none

/-- Consumes a leading sign character; returns whether the value is
negated and the remaining characters. -/
def takeSign : List Char → Bool × List Char
  | '-' :: rest => (true, rest)
  | '+' :: rest => (false, rest)
  | l => (false, l)

/-- Takes the longest digit prefix, as digit values, with the rest. -/
def spanDigits : List Char → List Nat × List Char
  | [] => ([], [])
  | c :: rest =>
    match charToDigit c with
    | some d =>
      let p := spanDigits rest
      (d :: p.1, p.2)
    | none => ([], c :: rest)

/-- Value of a big-endian digit list. -/
def digitsVal (ds : List Nat) : Nat :=
  ds.foldl (fun a d => 10 * a + d) 0

/-- Splits a character list at the first exponent marker. -/
def splitExpAux : List Char → List Char → List Char × Option (List Char)
  | [], acc => (acc.reverse, none)
  | c :: rest, acc =>
    if c = 'e' ∨ c = 'E' then (acc.reverse, some rest)
    else splitExpAux rest (c :: acc)

/-- An exact decimal value num / 10 ^ den10, the result of parsing a
decimal floating-point literal. -/
structure GoFloat where
  num : Int
  den10 : Nat
deriving DecidableEq

/-- The rational value of a parsed decimal. -/
def GoFloat.val (f : GoFloat) : ℚ :=
  (f.num : ℚ) / (10 : ℚ) ^ f.den10

/-- Parse of an unsigned decimal mantissa (digits with an optional dot),
returning the digit value, the fractional length and the remaining
characters. -/
def parseMantissa (l : List Char) : Option (Nat × Nat × List Char) :=
  let p1 := spanDigits l
  match p1.2 with
  | '.' :: r2 =>
    let p2 := spanDigits r2
    if p1.1.isEmpty ∧ p2.1.isEmpty then none
    else some (digitsVal (p1.1 ++ p2.1), p2.1.length, p2.2)
  | _ => if p1.1.isEmpty then none else some (digitsVal p1.1, 0, p1.2)

/-- Model of Go strconv.ParseFloat(s, 64) on the decimal forms the source
feeds it, with the exact decimal value.  The binary rounding of float64
is not modelled: the source applies the function to small decimal
numerals whose values and subsequent products are exactly representable.
Hex floats, Inf, NaN and digit-group underscores are not modelled. -/
def goParseFloat (s : String) : Option GoFloat :=
  let sp := splitExpAux s.data []
  let sg := takeSign sp.1
  match parseMantissa sg.2 with
  | none => none
  | some (m, fracLen, rest) =>
    if ¬ rest.isEmpty then none
    else
      let num : Int := if sg.1 then -(m : Int) else (m : Int)
      match sp.2 with
      | none => some ⟨num, fracLen⟩
      | some el =>
        let esg := takeSign el
        let ed := spanDigits esg.2
        if ed.1.isEmpty ∨ ¬ ed.2.isEmpty then none
        else
          let e := digitsVal ed.1
          some (if esg.1 then ⟨num, fracLen + e⟩ else ⟨num * (10 : Int) ^ e, fracLen⟩)

/-- Model of the Go conversion int64(f) of the decimal value
m / 10 ^ k: truncation toward zero. -/
def truncDecimal (m : Int) (k : Nat) : Int :=
  if m < 0 then -(Int.ofNat ((-m).toNat / 10 ^ k)) else Int.ofNat (m.toNat / 10 ^ k)

/-- The unit suffixes accepted by the Kubernetes quantity grammar. -/
def k8sSuffixes : List String :=
  ["", "Ki", "Mi", "Gi", "Ti", "Pi", "Ei", "n", "u", "m", "k", "M", "G", "T", "P", "E"]

/-- Model of the accepting set of k8s.io/apimachinery resource.ParseQuantity
(third-party library): an optional sign, a decimal number with an optional
fractional part, and either a recognized unit suffix or a decimal
exponent. -/
def isK8sQuantity (s : String) : Bool :=
  let sg := takeSign s.data
  let p1 := spanDigits sg.2
  let frac :=
    match p1.2 with
    | '.' :: r => some (spanDigits r)
    | _ => none
  let intDigits := p1.1
  let fracDigits := (frac.map Prod.fst).getD []
  let rest := (frac.map Prod.snd).getD p1.2
  if intDigits.isEmpty ∧ fracDigits.isEmpty then false
  else
    match rest with
    | 'e' :: er =>
      let esg := takeSign er
      let ed := spanDigits esg.2
      decide (¬ ed.1.isEmpty ∧ ed.2.isEmpty)
    | 'E' :: er =>
      let esg := takeSign er
      let ed := spanDigits esg.2
      decide (¬ ed.1.isEmpty ∧ ed.2.isEmpty)
    | suffix => k8sSuffixes.contains ⟨suffix⟩

/-- Model of Mapper.parseMemorySize (internal/kubevirt/mapper.go):
converts a memory size string to the Kubernetes resource format; none
models the error return. -/
def parseMemorySize (sizeStr : String) : Option String :=
  let s := goTrimSpace (goToUpper sizeStr)
  if goHasSuffix s "I" then some s
  else if goHasSuffix s "GB" then
    match goParseFloat (goTrimSuffix s "GB") with
    | none => none
    | some num => some (goItoa (truncDecimal (num.num * 1024 * 1024 * 1024) num.den10))
  else if goHasSuffix s "MB" then
    match goParseFloat (goTrimSuffix s "MB") with
    | none => none
    | some num => some (goItoa (truncDecimal num.num num.den10) ++ "Mi")
  else
    match goParseInt64 s with
    | some n => some (goItoa n ++ "Mi")
    | none => if isK8sQuantity s then some s else none

/-! ### Unstructured documents

Go's unstructured resource documents (map[string]interface{} values
decoded from JSON) are modelled as a JSON-like tree.  The source only
looks fields up by key, so field order is irrelevant to every modelled
operation. -/

/-- A JSON-like value, the model of Go's interface{} trees held by
unstructured.Unstructured. -/
inductive JValue where
  | jstr (s : String)
  | jint (n : Int)
  | jbool (b : Bool)
  | jobj (fields : List (String × JValue))
  | jarr (elems : List JValue)

/-- Key lookup in an object field list (Go map indexing). -/
def findField : List (String × JValue) → String → Option JValue
  | [], _ => none
  | (k, v) :: rest, key => if k = key then some v else findField rest key

/-- Outcome of the unstructured.Nested* accessors: the Go triple
(value, found, err) collapses to found value, missing (found=false,
err=nil) or err. -/
inductive Nested (α : Type) where
  | missing
  | val (a : α)
  | err
deriving DecidableEq

/-- Model of unstructured.NestedFieldNoCopy: walks the path, missing when
a key is absent, err when a non-final value is not an object. -/
def nestedField : JValue → List String → Nested JValue
  | v, [] => .val v
  | .jobj fs, k :: ks =>
    match findField fs k with
    | some v => nestedField v ks
    | none => .missing
  | _, _ :: _ => .err

/-- Model of unstructured.NestedBool: the final value must be a bool. -/
def nestedBool (v : JValue) (path : List String) : Nested Bool :=
  match nestedField v path with
  | .val (.jbool b) => .val b
  | .val _ => .err
  | .missing => .missing
  | .err => .err

/-- Model of unstructured.NestedString: the final value must be a string. -/
def nestedString (v : JValue) (path : List String) : Nested String :=
  match nestedField v path with
  | .val (.jstr s) => .val s
  | .val _ => .err
  | .missing => .missing
  | .err => .err

/-- Model of unstructured.NestedSlice: the final value must be a slice. -/
def nestedSlice (v : JValue) (path : List String) : Nested (List JValue) :=
  match nestedField v path with
  | .val (.jarr l) => .val l
  | .val _ => .err
  | .missing => .missing
  | .err => .err

/-! ### Spec mapper (internal/kubevirt/mapper.go)

The DCM VMSpec type (catalog-manager api/v1alpha1/servicetypes/vm).  Only
the fields the mapper reads are modelled: Vcpu.Count, Memory.Size,
GuestOS.Type and Storage.Disks; the remaining VMSpec fields (metadata,
service type, SSH keys) are never read by the mapper. -/

/-- One entry of VMSpec.Storage.Disks. -/
structure Disk where
  name : String
  capacity : String
deriving DecidableEq

/-- The declarative VM specification consumed by the mapper. -/
structure VMSpec where
  vcpuCount : Int
  memorySize : String
  guestOSType : String
  disks : List Disk
deriving DecidableEq

/-- Model of Mapper.getContainerDiskImage: maps guest OS to container
disk image, defaulting to CirrOS for unknown OS types. -/
def getContainerDiskImage (guestOSType : String) : String :=
  let t := goToLower guestOSType
  if t = "ubuntu" then "quay.io/kubevirt/ubuntu-container-disk-demo:latest"
  else if t = "centos" then "quay.io/kubevirt/centos-container-disk-demo:latest"
  else if t = "fedora" then "quay.io/kubevirt/fedora-container-disk-demo:latest"
  else if t = "cirros" then "quay.io/kubevirt/cirros-container-disk-demo:latest"
  else "quay.io/kubevirt/cirros-container-disk-demo:latest"

/-- Model of Mapper.buildResources: cpu request is the vcpu count, the
memory request is the parsed memory size, falling back to the "2Gi"
default when parsing fails. -/
def buildResources (s : VMSpec) : JValue :=
  let memory :=
    match parseMemorySize s.memorySize with
    | some m => m
    | none => "2Gi"
  .jobj [("requests", .jobj [("cpu", .jstr (goItoa s.vcpuCount)), ("memory", .jstr memory)])]

/-- The disk entries of Mapper.buildDisks, carrying the running index of
the Go range loop: the first disk, or a disk named "boot", gets
bootOrder 1. -/
def buildDisksAux : List Disk → Nat → List JValue
  | [], _ => []
  | d :: rest, i =>
    let base := [("name", JValue.jstr d.name), ("disk", JValue.jobj [("bus", JValue.jstr "virtio")])]
    let diskSpec := if i == 0 || d.name == "boot" then base ++ [("bootOrder", JValue.jint 1)] else base
    .jobj diskSpec :: buildDisksAux rest (i + 1)

/-- Model of Mapper.buildDisks: one entry per storage disk, with a
default boot disk when no disks are defined. -/
def buildDisks (s : VMSpec) : List JValue :=
  let disks := buildDisksAux s.disks 0
  if disks.isEmpty then
    [.jobj [("name", .jstr "boot"), ("disk", .jobj [("bus", .jstr "virtio")]), ("bootOrder", .jint 1)]]
  else disks

/-- The volume entries of Mapper.buildVolumes: the first disk, or a disk
named "boot", is backed by the guest-OS container disk image; other disks
are backed by an empty disk of the fixed default capacity. -/
def buildVolumesAux (guestOSType : String) : List Disk → Nat → List JValue
  | [], _ => []
  | d :: rest, i =>
    let vol :=
      if i == 0 || d.name == "boot" then
        JValue.jobj [("name", .jstr d.name),
          ("containerDisk", .jobj [("image", .jstr (getContainerDiskImage guestOSType))])]
      else
        JValue.jobj [("name", .jstr d.name),
          ("emptyDisk", .jobj [("capacity", .jstr "10Gi")])]
    vol :: buildVolumesAux guestOSType rest (i + 1)

/-- Model of Mapper.buildVolumes, with a default boot volume when no
disks are defined. -/
def buildVolumes (s : VMSpec) : List JValue :=
  let volumes := buildVolumesAux s.guestOSType s.disks 0
  if volumes.isEmpty then
    [.jobj [("name", .jstr "boot"),
      ("containerDisk", .jobj [("image", .jstr (getContainerDiskImage s.guestOSType))])]]
  else volumes

/-- Model of Mapper.buildNetworks: the single default pod network. -/
def buildNetworks : List JValue :=
  [.jobj [("name", .jstr "default"), ("pod", .jobj [])]]

/-- Model of Mapper.buildInterfaces: the single masquerade-bound
interface named after the default network. -/
def buildInterfaces : List JValue :=
  [.jobj [("name", .jstr "default"), ("masquerade", .jobj []), ("model", .jstr "virtio")]]

/-- Model of Mapper.buildDomainSpec. -/
def buildDomainSpec (s : VMSpec) : JValue :=
  .jobj [("devices", .jobj [("disks", .jarr (buildDisks s)), ("interfaces", .jarr buildInterfaces)]),
    ("resources", buildResources s),
    ("machine", .jobj [("type", .jstr "q35")])]

/-- The VirtualMachine unstructured object built by
Mapper.VMSpecToVirtualMachine. -/
def vmObject (s : VMSpec) (vmName vmID ns : String) : JValue :=
  .jobj
    [("apiVersion", .jstr "kubevirt.io/v1"),
     ("kind", .jstr "VirtualMachine"),
     ("metadata", .jobj [("name", .jstr vmName), ("namespace", .jstr ns),
        ("labels", .jobj [("dcm.project/managed-by", .jstr "dcm"),
          ("dcm.project/dcm-instance-id", .jstr vmID)])]),
     ("spec", .jobj
       [("running", .jbool true),
        ("template", .jobj
          [("metadata", .jobj []),
           ("spec", .jobj
             [("domain", buildDomainSpec s),
              ("networks", .jarr buildNetworks),
              ("volumes", .jarr (buildVolumes s)),
              ("terminationGracePeriodSeconds", .jint 180)])])])]

/-- Model of Mapper.VMSpecToVirtualMachine: builds the KubeVirt
VirtualMachine unstructured object.  The Go function's error result is
always nil; the Except models its signature. -/
def VMSpecToVirtualMachine (s : VMSpec) (vmName vmID ns : String) : Except String JValue :=
  .ok (vmObject s vmName vmID ns)

/-- Model of Mapper.inferGuestOSFromImage: case-insensitive substring
match against the OS table, defaulting to cirros. -/
def inferGuestOSFromImage (image : String) : String :=
  let img := goToLower image
  if goContains img "ubuntu" then "ubuntu"
  else if goContains img "centos" then "centos"
  else if goContains img "fedora" then "fedora"
  else if goContains img "cirros" then "cirros"
  else "cirros"

/-- The CPU extraction step of Mapper.VirtualMachineToVMSpec: reads the
declared cpu request, parses it, and defaults to one core. -/
def extractCpuCount (vm : JValue) : Int :=
  let count : Int :=
    match nestedString vm ["spec", "template", "spec", "domain", "resources", "requests", "cpu"] with
    | .val c =>
      match goParseInt64 c with
      | some k => k
      | none => 0
    | _ => 0
  if count = 0 then 1 else count

/-- The memory extraction step of Mapper.VirtualMachineToVMSpec. -/
def extractMemory (vm : JValue) : String :=
  match nestedString vm ["spec", "template", "spec", "domain", "resources", "requests", "memory"] with
  | .val m => m
  | _ => "1Gi"

/-- The guest OS inference step of Mapper.VirtualMachineToVMSpec: looks
at the first volume's container disk image, defaulting to cirros. -/
def extractGuestOS (vm : JValue) : String :=
  match nestedSlice vm ["spec", "template", "spec", "volumes"] with
  | .val (v :: _) =>
    match v with
    | .jobj fs =>
      match findField fs "containerDisk" with
      | some (.jobj cfs) =>
        match findField cfs "image" with
        | some (.jstr img) => inferGuestOSFromImage img
        | _ => "cirros"
      | _ => "cirros"
    | _ => "cirros"
  | _ => "cirros"

/-- The disk reconstruction step of Mapper.VirtualMachineToVMSpec:
collects device names; capacity is not recoverable and is left empty. -/
def extractDiskList : List JValue → List Disk
  | [] => []
  | v :: rest =>
    match v with
    | .jobj fs =>
      match findField fs "name" with
      | some (.jstr n) => ⟨n, ""⟩ :: extractDiskList rest
      | _ => extractDiskList rest
    | _ => extractDiskList rest

/-- Disk extraction with the default boot disk when none are found. -/
def extractDisks (vm : JValue) : List Disk :=
  let disks :=
    match nestedSlice vm ["spec", "template", "spec", "domain", "devices", "disks"] with
    | .val l => extractDiskList l
    | _ => []
  if disks.isEmpty then [⟨"boot", ""⟩] else disks

/-- Model of Mapper.VirtualMachineToVMSpec: the best-effort reverse
mapping from a KubeVirt VirtualMachine object to a VMSpec.  The Go
function's error result is always nil; the Except models its
signature. -/
def VirtualMachineToVMSpec (vm : JValue) : Except String VMSpec :=
  .ok ⟨extractCpuCount vm, extractMemory vm, extractGuestOS vm, extractDisks vm⟩

/-! ### Phase normalizer (internal/monitor/phase.go) -/

/-- The canonical VM lifecycle phase. -/
inductive VMPhase where
  | unknown
  | pending
  | scheduling
  | scheduled
  | running
  | stopped
  | failed
  | succeeded
  | terminating
deriving DecidableEq

/-- Model of VMPhase.String. -/
def VMPhase.toStr : VMPhase → String
  | .unknown => "Unknown"
  | .pending => "Pending"
  | .scheduling => "Scheduling"
  | .scheduled => "Scheduled"
  | .running => "Running"
  | .stopped => "Stopped"
  | .failed => "Failed"
  | .succeeded => "Succeeded"
  | .terminating => "Terminating"

/-- The condition loop of analyzeVMConditions, carrying the hasFailure
and hasReady flags; a true Paused condition returns Stopped at once. -/
def analyzeVMConditionsAux : List JValue → Bool → Bool → VMPhase
  | [], hasFailure, hasReady =>
    if hasFailure then .failed else if hasReady then .running else .unknown
  | c :: rest, hasFailure, hasReady =>
    match c with
    | .jobj fs =>
      match findField fs "type", findField fs "status" with
      | some (.jstr typeStr), some (.jstr statusStr) =>
        if typeStr = "Ready" then
          analyzeVMConditionsAux rest hasFailure (hasReady || statusStr == "True")
        else if typeStr = "Failure" ∨ typeStr = "Failed" then
          analyzeVMConditionsAux rest (hasFailure || statusStr == "True") hasReady
        else if typeStr = "Paused" then
          if statusStr = "True" then .stopped
          else analyzeVMConditionsAux rest hasFailure hasReady
        else analyzeVMConditionsAux rest hasFailure hasReady
      | _, _ => analyzeVMConditionsAux rest hasFailure hasReady
    | _ => analyzeVMConditionsAux rest hasFailure hasReady

/-- Model of analyzeVMConditions (phase.go): scans VM conditions for
Paused, failure-type and Ready conditions. -/
def analyzeVMConditions (conditions : List JValue) : VMPhase :=
  analyzeVMConditionsAux conditions false false

/-- The body of extractVMPhase after the spec.running read: running has
the explicit value or its true default. -/
def extractVMPhaseAux (vm : JValue) (running : Bool) : Except String VMPhase :=
  if !running then .ok .stopped
  else
    let readyP : Bool × Bool :=
      match nestedBool vm ["status", "ready"] with
      | .val b => (b, true)
      | _ => (false, false)
    if readyP.2 && readyP.1 then .ok .running
    else
      let createdP : Bool × Bool :=
        match nestedBool vm ["status", "created"] with
        | .val b => (b, true)
        | _ => (false, false)
      if createdP.2 && !createdP.1 then .ok .pending
      else
        let condP : List JValue × Bool :=
          match nestedSlice vm ["status", "conditions"] with
          | .val cs => (cs, true)
          | _ => ([], false)
        if condP.2 && !(analyzeVMConditions condP.1 == VMPhase.unknown) then
          .ok (analyzeVMConditions condP.1)
        else if running && (!condP.2 || !readyP.1) then .ok .pending
        else .ok .unknown

/-- Model of extractVMPhase (phase.go): derives the phase of a
VirtualMachine-shaped raw status.  A type error on spec.running is the
only error path; failed reads of the status fields are logged and
treated as not found, exactly as in the source. -/
def extractVMPhase (vm : JValue) : Except String VMPhase :=
  match nestedBool vm ["spec", "running"] with
  | .err => .error "failed to get spec.running"
  | .missing => extractVMPhaseAux vm true
  | .val b => extractVMPhaseAux vm b

/-- Model of extractVMIPhase (phase.go): the VirtualMachineInstance
status carries an explicit phase string, mapped one to one; a missing
phase defaults to Pending. -/
def extractVMIPhase (vmi : JValue) : Except String VMPhase :=
  match nestedString vmi ["status", "phase"] with
  | .err => .error "failed to get VMI status.phase"
  | .missing => .ok .pending
  | .val phase =>
    if phase = "Pending" then .ok .pending
    else if phase = "Scheduling" then .ok .scheduling
    else if phase = "Scheduled" then .ok .scheduled
    else if phase = "Running" then .ok .running
    else if phase = "Succeeded" then .ok .succeeded
    else if phase = "Failed" then .ok .failed
    else if phase = "Unknown" then .ok .unknown
    else .ok .unknown

/-- Model of extractPhase (phase.go): dispatch on the object kind. -/
def extractPhase (obj : JValue) : Except String VMPhase :=
  match nestedString obj ["kind"] with
  | .val "VirtualMachine" => extractVMPhase obj
  | .val "VirtualMachineInstance" => extractVMIPhase obj
  | _ => .error "unsupported object kind"

/-! ### Monitor service (monitor package, handleVMEvent variant)

The informer-based monitor: every VM or VMI event is handled by
publishing the current state; a deletion event forces the Stopped
phase. -/

/-- The DCM instance-id label key (internal/constants). -/
def DCMLabelInstanceID : String := "dcm.project/dcm-instance-id"

/-- The managed-by label key (internal/constants). -/
def DCMLabelManagedBy : String := "dcm.project/managed-by"

/-- Model of Unstructured.GetName. -/
def getName (o : JValue) : String :=
  match nestedString o ["metadata", "name"] with
  | .val s => s
  | _ => ""

/-- Model of Unstructured.GetNamespace. -/
def getNamespace (o : JValue) : String :=
  match nestedString o ["metadata", "namespace"] with
  | .val s => s
  | _ => ""

/-- Model of a label lookup on Unstructured.GetLabels. -/
def getLabel (o : JValue) (key : String) : Option String :=
  match nestedString o ["metadata", "labels", key] with
  | .val s => some s
  | _ => none

/-- Extracted VM information for phase comparison (phase.go VMInfo). -/
structure VMInfo where
  vmID : String
  vmName : String
  namespaceStr : String
  phase : VMPhase
deriving DecidableEq

/-- Model of ExtractVMInfo (phase.go): identifying information plus the
derived phase; the DCM instance id falls back to the VM name. -/
def ExtractVMInfo (obj : JValue) : Except String VMInfo :=
  let vmName := getName obj
  let ns := getNamespace obj
  let vmID :=
    match getLabel obj DCMLabelInstanceID with
    | some id => if id = "" then vmName else id
    | none => vmName
  match extractPhase obj with
  | .error e => .error e
  | .ok phase => .ok ⟨vmID, vmName, ns, phase⟩

/-- The outbound event envelope (events.VMEvent); the wall-clock
timestamp the source adds is not modelled. -/
structure VMEvent where
  vmId : String
  vmName : String
  namespaceStr : String
  phase : String
deriving DecidableEq

/-- Model of Service.isDCMManagedVM (monitor service). -/
def isDCMManagedVM (o : JValue) : Bool :=
  match getLabel o DCMLabelManagedBy with
  | some v => v == "dcm"
  | none => false

/-- Model of Service.handleVMEvent (monitor service, handleVMEvent
variant): returns the list of events handed to the publisher.  The
DeletedFinalStateUnknown unwrapping concerns the informer cache
machinery and is not modelled; obj is the delivered resource document. -/
def handleVMEvent (obj : JValue) (eventType : String) : List VMEvent :=
  if ¬ isDCMManagedVM obj then []
  else
    match ExtractVMInfo obj with
    | .error _ => []
    | .ok vmInfo =>
      let vmInfo := if eventType = "deleted" then { vmInfo with phase := .stopped } else vmInfo
      [⟨vmInfo.vmID, vmInfo.vmName, vmInfo.namespaceStr, vmInfo.phase.toStr⟩]

/-! ### VM status synchronization service (service package,
VMStatusSyncService)

The per-VM watch workers.  The watcher map is the only shared mutable
state; its mutations are serialized by the service's mutex, so the map's
evolution is modelled as a sequence of operations on an association
list keyed by the VM identifier. -/

/-- Application status constants of the service package.  CREATED,
IN_PROGRESS and READY are declared in the provided sources; the
declaration carrying StatusDeleted, StatusFailed and StatusUnknown is in
a repository file outside the provided sources, and only distinctness
from the other values matters to the modelled code paths. -/
def StatusCreated : String := "CREATED"

/-- Status constant IN_PROGRESS. -/
def StatusInProgress : String := "IN_PROGRESS"

/-- Status constant READY. -/
def StatusReady : String := "READY"

/-- Status constant for deleted applications (declaration outside the
provided sources). -/
def StatusDeleted : String := "DELETED"

/-- Status constant for failed applications (declaration outside the
provided sources). -/
def StatusFailed : String := "FAILED"

/-- Status constant for unknown application state (declaration outside
the provided sources). -/
def StatusUnknown : String := "UNKNOWN"

/-- Model of VMStatusSyncService.mapVMIPhaseToAppStatus: maps the
KubeVirt VMI phase string to the application status. -/
def mapVMIPhaseToAppStatus (phase : String) : String :=
  if phase = "Running" then StatusReady
  else if phase = "Scheduled" ∨ phase = "Scheduling" ∨ phase = "Pending" then StatusInProgress
  else if phase = "Succeeded" then StatusInProgress
  else if phase = "Unknown" then StatusUnknown
  else if phase = "Failed" then StatusFailed
  else StatusUnknown

/-- The watcher map: VM identifier to watch-session handle. -/
abbrev WatcherMap := List (String × Nat)

/-- Go map assignment on the watcher map: overwrites the entry when the
key is present, appends otherwise. -/
def wInsert (m : WatcherMap) (k : String) (w : Nat) : WatcherMap :=
  if m.any (fun p => p.1 == k) then m.map (fun p => if p.1 == k then (k, w) else p)
  else m ++ [(k, w)]

/-- Go map delete on the watcher map. -/
def wRemove (m : WatcherMap) (k : String) : WatcherMap :=
  m.filter (fun p => p.1 != k)

/-- A KubeVirt VirtualMachineInstance as seen by the sync service. -/
structure VMIObj where
  name : String
  namespaceStr : String
  phase : String
deriving DecidableEq

/-- The type tag of a delivered watch.Event. -/
inductive WatchEventType where
  | added
  | modified
  | deleted
  | bookmark
  | errorType
deriving DecidableEq

/-- A delivered watch.Event; object is none when the delivered object is
not a VirtualMachineInstance. -/
structure WatchEvent where
  eventType : WatchEventType
  object : Option VMIObj
deriving DecidableEq

/-- The store lookup outcome for the application record: the record's
status, or not found. -/
inductive StoreGet where
  | notFound
  | found (status : String)
deriving DecidableEq

/-- Observable outcome of one handleVMIEvent call: the watcher map after
the call, the status written to the store (if any), the status sent to
the DCM system (if any), and the returned error. -/
structure SyncOutcome where
  watchers : WatcherMap
  storeWrite : Option String
  dcmSent : Option String
  errorMsg : Option String
deriving DecidableEq

/-- Model of VMStatusSyncService.handleVMIEvent: processes one delivered
event for the worker of vmIDStr.  idValid models uuid.Parse succeeding;
getRes is the store lookup result; updateOk tells whether the store
update succeeds.  Note the event type is never inspected: deleted events
take the same path as any other event. -/
def handleVMIEvent (watchers : WatcherMap) (ev : WatchEvent) (idValid : Bool)
    (vmIDStr : String) (getRes : StoreGet) (updateOk : Bool) : SyncOutcome :=
  match ev.object with
  | none => ⟨watchers, none, none, none⟩
  | some vmi =>
    if ¬ idValid then ⟨watchers, none, none, none⟩
    else
      match getRes with
      | .notFound => ⟨wRemove watchers vmIDStr, none, none, none⟩
      | .found appStatus =>
        if appStatus = StatusDeleted then ⟨wRemove watchers vmIDStr, none, none, none⟩
        else
          let newStatus := mapVMIPhaseToAppStatus vmi.phase
          if appStatus ≠ newStatus then
            if ¬ updateOk then
              ⟨watchers, none, none, some "failed to update application status in database"⟩
            else ⟨watchers, some newStatus, some newStatus, none⟩
          else ⟨watchers, none, some newStatus, none⟩

/-- The inputs a worker's receive loop can wake up on
(watchVMInstance). -/
inductive LoopSignal where
  | ctxDone
  | chanClosed
  | recv (ev : WatchEvent)

/-- What the worker does next after one wakeup (watchVMInstance): exit
on cancellation, reconnect on channel closure, keep the session running
after handling an event — the handler's error is logged only. -/
inductive LoopDecision where
  | exitLoop
  | reconnect
  | continueLoop
deriving DecidableEq

/-- Model of the watchVMInstance receive loop body: the decision depends
only on the delivered signal, never on the event handler's result. -/
def watchLoopStep : LoopSignal → LoopDecision
  | .ctxDone => .exitLoop
  | .chanClosed => .reconnect
  | .recv _ => .continueLoop

/-- One mutation of the watcher map, as serialized by the service's
mutex: session registration (watchVMInstance inserting its watcher),
removal (the deferred delete, or the stop paths of handleVMIEvent), and
stopAllWatchers resetting the map. -/
inductive WOp where
  | register (id : String) (w : Nat)
  | remove (id : String)
  | stopAll

/-- Applying one watcher-map operation. -/
def applyWOp (m : WatcherMap) : WOp → WatcherMap
  | .register id w => wInsert m id w
  | .remove id => wRemove m id
  | .stopAll => []

/-- Applying a sequence of watcher-map operations. -/
def runWOps (m : WatcherMap) (ops : List WOp) : WatcherMap :=
  ops.foldl applyWOp m

/-- The watcher map holds no two entries for one identifier. -/
def keysNodup (m : WatcherMap) : Prop :=
  (m.map Prod.fst).Nodup

/-- A built disk entry is boot-capable when it carries a bootOrder. -/
def hasBootOrder (j : JValue) : Bool :=
  match j with
  | .jobj fs => (findField fs "bootOrder").isSome
  | _ => false

/-- The container disk image backing a built volume, if any. -/
def volumeImage (j : JValue) : Option String :=
  match j with
  | .jobj fs =>
    match findField fs "containerDisk" with
    | some (.jobj cfs) =>
      match findField cfs "image" with
      | some (.jstr img) => some img
      | _ => none
    | _ => none
  | _ => none

/-- A built volume is an empty writable volume of the fixed default
capacity. -/
def isEmptyDefaultVolume (j : JValue) : Bool :=
  match j with
  | .jobj fs =>
    match findField fs "emptyDisk" with
    | some (.jobj [("capacity", .jstr cap)]) => cap == "10Gi"
    | _ => false
  | _ => false

/-! ### Decimal rendering and parsing invert each other -/

theorem charToDigit_digitToChar : ∀ d : Nat, d < 10 → charToDigit (digitToChar d) = some d := by
  decide

theorem digitToChar_ne_sign : ∀ d : Nat, d < 10 → digitToChar d ≠ '+' ∧ digitToChar d ≠ '-' := by
  decide

theorem natDigitsRevAux_zero (fuel : Nat) : natDigitsRevAux fuel 0 = [] := by
  cases fuel <;> rfl

theorem natDigitsRevAux_spec : ∀ fuel n : Nat, 0 < n → n ≤ fuel →
    ofDigitsRev (natDigitsRevAux fuel n) = n ∧ natDigitsRevAux fuel n ≠ [] := by
  intro fuel
  induction fuel with
  | zero => intro n h1 h2; omega
  | succ f ih =>
    intro n h1 h2
    match n, h1 with
    | m + 1, _ =>
      have hstep : natDigitsRevAux (f + 1) (m + 1)
          = (m + 1) % 10 :: natDigitsRevAux f ((m + 1) / 10) := rfl
      by_cases hq : (m + 1) / 10 = 0
      · rw [hstep, hq, natDigitsRevAux_zero]
        refine ⟨?_, by simp⟩
        show (m + 1) % 10 + 10 * ofDigitsRev [] = m + 1
        show (m + 1) % 10 + 10 * 0 = m + 1
        omega
      · have hq1 : 0 < (m + 1) / 10 := Nat.pos_of_ne_zero hq
        have hq2 : (m + 1) / 10 ≤ f := by omega
        obtain ⟨hv, _⟩ := ih ((m + 1) / 10) hq1 hq2
        rw [hstep]
        refine ⟨?_, by simp⟩
        show (m + 1) % 10 + 10 * ofDigitsRev (natDigitsRevAux f ((m + 1) / 10)) = m + 1
        rw [hv]
        omega

theorem natDigitsRevAux_lt : ∀ fuel n d : Nat, d ∈ natDigitsRevAux fuel n → d < 10 := by
  intro fuel
  induction fuel with
  | zero => intro n d hd; simp [natDigitsRevAux] at hd
  | succ f ih =>
    intro n d hd
    match n with
    | 0 => simp [natDigitsRevAux] at hd
    | m + 1 =>
      have hstep : natDigitsRevAux (f + 1) (m + 1)
          = (m + 1) % 10 :: natDigitsRevAux f ((m + 1) / 10) := rfl
      rw [hstep] at hd
      rcases List.mem_cons.mp hd with h | h
      · omega
      · exact ih _ _ h

theorem parseNatDigitsAux_map : ∀ l : List Nat, ∀ acc : Nat, (∀ d ∈ l, d < 10) →
    parseNatDigitsAux (l.map digitToChar) acc = some (l.foldl (fun a d => 10 * a + d) acc) := by
  intro l
  induction l with
  | nil => intro acc h; rfl
  | cons d rest ih =>
    intro acc h
    have hd : d < 10 := h d (by simp)
    simp only [List.map_cons, parseNatDigitsAux, charToDigit_digitToChar d hd, List.foldl_cons]
    exact ih _ (fun x hx => h x (by simp [hx]))

theorem ofDigitsRev_eq_foldr : ∀ l : List Nat, ofDigitsRev l = l.foldr (fun d a => 10 * a + d) 0 := by
  intro l
  induction l with
  | nil => rfl
  | cons d rest ih => simp only [ofDigitsRev, List.foldr_cons, ih]; omega

theorem parseNatDigits_natToChars (n : Nat) : parseNatDigits (natToChars n) = some n := by
  by_cases h0 : n = 0
  · subst h0; decide
  · have hpos : 0 < n := Nat.pos_of_ne_zero h0
    obtain ⟨hval, hne⟩ := natDigitsRevAux_spec n n hpos (le_refl n)
    have hner : (natDigitsRevAux n n).reverse ≠ [] := by
      simpa using hne
    obtain ⟨d0, l0, hl⟩ := List.exists_cons_of_ne_nil hner
    have hlt : ∀ d ∈ (natDigitsRevAux n n).reverse, d < 10 :=
      fun d hd => natDigitsRevAux_lt n n d (List.mem_reverse.mp hd)
    have hparse := parseNatDigitsAux_map (natDigitsRevAux n n).reverse 0 hlt
    have hfold : (natDigitsRevAux n n).reverse.foldl (fun a d => 10 * a + d) 0
        = ofDigitsRev (natDigitsRevAux n n) := by
      rw [List.foldl_reverse, ofDigitsRev_eq_foldr]
    unfold natToChars
    rw [if_neg h0, hl]
    show parseNatDigitsAux (List.map digitToChar (d0 :: l0)) 0 = some n
    rw [← hl, hparse, hfold, hval]

theorem natToChars_head_digit (n : Nat) :
    ∃ d l, natToChars n = digitToChar d :: l ∧ d < 10 := by
  by_cases h0 : n = 0
  · exact ⟨0, [], by subst h0; rfl, by omega⟩
  · have hpos : 0 < n := Nat.pos_of_ne_zero h0
    obtain ⟨_, hne⟩ := natDigitsRevAux_spec n n hpos (le_refl n)
    have hner : (natDigitsRevAux n n).reverse ≠ [] := by simpa using hne
    obtain ⟨d0, l0, hl⟩ := List.exists_cons_of_ne_nil hner
    refine ⟨d0, l0.map digitToChar, ?_, ?_⟩
    · unfold natToChars
      rw [if_neg h0, hl, List.map_cons]
    · exact natDigitsRevAux_lt n n d0 (List.mem_reverse.mp (hl ▸ List.mem_cons_self d0 l0))

theorem goParseInt64_natToChars (n : Nat) (h : n ≤ 2 ^ 63 - 1) :
    goParseInt64 ⟨natToChars n⟩ = some (n : Int) := by
  obtain ⟨d, l, hl, hd⟩ := natToChars_head_digit n
  obtain ⟨hp, hm⟩ := digitToChar_ne_sign d hd
  have hraw : goParseIntRaw (natToChars n) = some (n : Int) := by
    rw [hl]
    have hstep : goParseIntRaw (digitToChar d :: l)
        = if digitToChar d = '+' then (parseNatDigits l).map Int.ofNat
          else if digitToChar d = '-' then (parseNatDigits l).map (fun k => -(k : Int))
          else (parseNatDigits (digitToChar d :: l)).map Int.ofNat := rfl
    rw [hstep, if_neg hp, if_neg hm, ← hl, parseNatDigits_natToChars]
    rfl
  have hle : (n : Int) ≤ 2 ^ 63 - 1 := by
    have : (n : Int) ≤ ((2 ^ 63 - 1 : Nat) : Int) := by exact_mod_cast h
    omega
  show goParseInt64 ⟨natToChars n⟩ = some (n : Int)
  unfold goParseInt64
  rw [hraw]
  show (if -(2 ^ 63) ≤ (n : Int) ∧ (n : Int) ≤ 2 ^ 63 - 1 then some (n : Int) else none)
      = some (n : Int)
  rw [if_pos ⟨by omega, hle⟩]

theorem goParseInt64_goItoa_pos (c : Int) (h1 : 0 < c) (h2 : c ≤ 2 ^ 63 - 1) :
    goParseInt64 (goItoa c) = some c := by
  unfold goItoa
  rw [if_neg (by omega)]
  rw [goParseInt64_natToChars c.toNat (by omega)]
  congr 1
  omega

/-! ### Forward object lookups

The built VirtualMachine object has a fixed key structure, so the
reverse mapping's nested lookups reduce to the mapper's building
blocks. -/

theorem fwd_cpu_lookup (s : VMSpec) (a b c : String) :
    nestedString (vmObject s a b c) ["spec", "template", "spec", "domain", "resources", "requests", "cpu"]
    = .val (goItoa s.vcpuCount) := rfl

theorem fwd_memory_lookup (s : VMSpec) (a b c : String) :
    nestedString (vmObject s a b c) ["spec", "template", "spec", "domain", "resources", "requests", "memory"]
    = .val (match parseMemorySize s.memorySize with | some m => m | none => "2Gi") := rfl

theorem fwd_volumes_lookup (s : VMSpec) (a b c : String) :
    nestedSlice (vmObject s a b c) ["spec", "template", "spec", "volumes"] = .val (buildVolumes s) := rfl

theorem fwd_disks_lookup (s : VMSpec) (a b c : String) :
    nestedSlice (vmObject s a b c) ["spec", "template", "spec", "domain", "devices", "disks"]
    = .val (buildDisks s) := rfl

theorem extractGuestOS_fwd_cons (cnt : Int) (mem os : String) (d : Disk) (rest : List Disk)
    (a b c : String) :
    extractGuestOS (vmObject ⟨cnt, mem, os, d :: rest⟩ a b c)
    = inferGuestOSFromImage (getContainerDiskImage os) := rfl

theorem extractCpuCount_fwd (s : VMSpec) (a b c : String)
    (h1 : 0 < s.vcpuCount) (h2 : s.vcpuCount ≤ 2 ^ 63 - 1) :
    extractCpuCount (vmObject s a b c) = s.vcpuCount := by
  have hstep : extractCpuCount (vmObject s a b c)
      = (let count : Int :=
          match goParseInt64 (goItoa s.vcpuCount) with
          | some k => k
          | none => 0
         if count = 0 then 1 else count) := rfl
  rw [hstep, goParseInt64_goItoa_pos s.vcpuCount h1 h2]
  show (if s.vcpuCount = 0 then 1 else s.vcpuCount) = s.vcpuCount
  rw [if_neg (by omega)]

theorem extractDiskList_buildDisksAux : ∀ (l : List Disk) (i : Nat),
    extractDiskList (buildDisksAux l i) = l.map (fun d => (⟨d.name, ""⟩ : Disk)) := by
  intro l
  induction l with
  | nil => intro i; rfl
  | cons d rest ih =>
    intro i
    cases hcond : (i == 0 || d.name == "boot") with
    | true =>
      have hstep : buildDisksAux (d :: rest) i
          = .jobj [("name", JValue.jstr d.name), ("disk", JValue.jobj [("bus", JValue.jstr "virtio")]),
              ("bootOrder", JValue.jint 1)] :: buildDisksAux rest (i + 1) := by
        show (let base := [("name", JValue.jstr d.name), ("disk", JValue.jobj [("bus", JValue.jstr "virtio")])]
              let diskSpec := if i == 0 || d.name == "boot" then base ++ [("bootOrder", JValue.jint 1)] else base
              JValue.jobj diskSpec :: buildDisksAux rest (i + 1)) = _
        rw [hcond]
        rfl
      rw [hstep]
      show (⟨d.name, ""⟩ : Disk) :: extractDiskList (buildDisksAux rest (i + 1)) = _
      rw [ih, List.map_cons]
    | false =>
      have hstep : buildDisksAux (d :: rest) i
          = .jobj [("name", JValue.jstr d.name), ("disk", JValue.jobj [("bus", JValue.jstr "virtio")])]
            :: buildDisksAux rest (i + 1) := by
        show (let base := [("name", JValue.jstr d.name), ("disk", JValue.jobj [("bus", JValue.jstr "virtio")])]
              let diskSpec := if i == 0 || d.name == "boot" then base ++ [("bootOrder", JValue.jint 1)] else base
              JValue.jobj diskSpec :: buildDisksAux rest (i + 1)) = _
        rw [hcond]
        rfl
      rw [hstep]
      show (⟨d.name, ""⟩ : Disk) :: extractDiskList (buildDisksAux rest (i + 1)) = _
      rw [ih, List.map_cons]

theorem extractDisks_fwd (s : VMSpec) (a b c : String) (h : s.disks ≠ []) :
    extractDisks (vmObject s a b c) = s.disks.map (fun d => (⟨d.name, ""⟩ : Disk)) := by
  obtain ⟨d, rest, hcons⟩ := List.exists_cons_of_ne_nil h
  have hbuild : buildDisks s = buildDisksAux s.disks 0 := by
    unfold buildDisks
    rw [hcons]
    rfl
  unfold extractDisks
  rw [fwd_disks_lookup]
  show (let disks := extractDiskList (buildDisks s)
        if disks.isEmpty then [(⟨"boot", ""⟩ : Disk)] else disks) = _
  rw [hbuild, extractDiskList_buildDisksAux, hcons]
  rfl

theorem inferGuestOS_image_inverts (os : String)
    (h : os = "ubuntu" ∨ os = "centos" ∨ os = "fedora" ∨ os = "cirros") :
    inferGuestOSFromImage (getContainerDiskImage os) = os := by
  rcases h with h | h | h | h <;> subst h <;> decide

theorem extractGuestOS_fwd (s : VMSpec) (a b c : String)
    (hos : s.guestOSType = "ubuntu" ∨ s.guestOSType = "centos" ∨ s.guestOSType = "fedora"
      ∨ s.guestOSType = "cirros")
    (h : s.disks ≠ []) :
    extractGuestOS (vmObject s a b c) = s.guestOSType := by
  obtain ⟨cnt, mem, os, disks⟩ := s
  obtain ⟨d, rest, hcons⟩ := List.exists_cons_of_ne_nil h
  simp only at hcons hos
  subst hcons
  rw [extractGuestOS_fwd_cons]
  exact inferGuestOS_image_inverts os hos

theorem roundTrip_fields (s : VMSpec) (a b c : String)
    (h1 : 0 < s.vcpuCount) (h2 : s.vcpuCount ≤ 2 ^ 63 - 1)
    (h3 : s.guestOSType = "ubuntu" ∨ s.guestOSType = "centos" ∨ s.guestOSType = "fedora"
      ∨ s.guestOSType = "cirros")
    (h4 : s.disks ≠ []) :
    ∃ vm back, VMSpecToVirtualMachine s a b c = .ok vm ∧ VirtualMachineToVMSpec vm = .ok back
      ∧ back.vcpuCount = s.vcpuCount
      ∧ back.guestOSType = s.guestOSType
      ∧ back.disks.map Disk.name = s.disks.map Disk.name := by
  refine ⟨vmObject s a b c, _, rfl, rfl, ?_, ?_, ?_⟩
  · exact extractCpuCount_fwd s a b c h1 h2
  · exact extractGuestOS_fwd s a b c h3 h4
  · show (extractDisks (vmObject s a b c)).map Disk.name = s.disks.map Disk.name
    rw [extractDisks_fwd s a b c h4, List.map_map]
    rfl

/-! ### Boot-disk and volume structure of the built object -/

theorem buildDisksAux_tail_no_boot : ∀ (l : List Disk) (k : Nat),
    (∀ d ∈ l, d.name ≠ "boot") →
    ∀ j ∈ buildDisksAux l (k + 1), hasBootOrder j = false := by
  intro l
  induction l with
  | nil => intro k _ j hj; simp [buildDisksAux] at hj
  | cons d rest ih =>
    intro k hname j hj
    have hcond : ((k + 1 : Nat) == 0 || d.name == "boot") = false := by
      have h1 : d.name ≠ "boot" := hname d (by simp)
      simp [h1]
    have hstep : buildDisksAux (d :: rest) (k + 1)
        = .jobj [("name", JValue.jstr d.name), ("disk", JValue.jobj [("bus", JValue.jstr "virtio")])]
          :: buildDisksAux rest (k + 2) := by
      show (let base := [("name", JValue.jstr d.name), ("disk", JValue.jobj [("bus", JValue.jstr "virtio")])]
            let diskSpec := if (k + 1 : Nat) == 0 || d.name == "boot" then base ++ [("bootOrder", JValue.jint 1)] else base
            JValue.jobj diskSpec :: buildDisksAux rest (k + 2)) = _
      rw [hcond]
      rfl
    rw [hstep] at hj
    rcases List.mem_cons.mp hj with h | h
    · subst h; rfl
    · exact ih (k + 1) (fun x hx => hname x (by simp [hx])) j h

theorem buildDisksAux_head_boot (d : Disk) (rest : List Disk) :
    ∃ tl, buildDisksAux (d :: rest) 0
      = .jobj [("name", JValue.jstr d.name), ("disk", JValue.jobj [("bus", JValue.jstr "virtio")]),
          ("bootOrder", JValue.jint 1)] :: tl
      ∧ tl = buildDisksAux rest 1 := ⟨buildDisksAux rest 1, rfl, rfl⟩

theorem buildVolumesAux_tail_empty : ∀ (l : List Disk) (k : Nat) (os : String),
    (∀ d ∈ l, d.name ≠ "boot") →
    ∀ j ∈ buildVolumesAux os l (k + 1), isEmptyDefaultVolume j = true := by
  intro l
  induction l with
  | nil => intro k os _ j hj; simp [buildVolumesAux] at hj
  | cons d rest ih =>
    intro k os hname j hj
    have hcond : ((k + 1 : Nat) == 0 || d.name == "boot") = false := by
      have h1 : d.name ≠ "boot" := hname d (by simp)
      simp [h1]
    have hstep : buildVolumesAux os (d :: rest) (k + 1)
        = .jobj [("name", JValue.jstr d.name), ("emptyDisk", JValue.jobj [("capacity", JValue.jstr "10Gi")])]
          :: buildVolumesAux os rest (k + 2) := by
      show (let vol := if (k + 1 : Nat) == 0 || d.name == "boot"
              then JValue.jobj [("name", JValue.jstr d.name),
                ("containerDisk", JValue.jobj [("image", JValue.jstr (getContainerDiskImage os))])]
              else JValue.jobj [("name", JValue.jstr d.name),
                ("emptyDisk", JValue.jobj [("capacity", JValue.jstr "10Gi")])]
            vol :: buildVolumesAux os rest (k + 2)) = _
      rw [hcond]
      rfl
    rw [hstep] at hj
    rcases List.mem_cons.mp hj with h | h
    · subst h; rfl
    · exact ih (k + 1) os (fun x hx => hname x (by simp [hx])) j h

theorem countP_eq_zero_of_false {l : List JValue} (h : ∀ j ∈ l, hasBootOrder j = false) :
    l.countP hasBootOrder = 0 := by
  induction l with
  | nil => rfl
  | cons a t ih =>
    rw [List.countP_cons, h a (by simp), ih (fun j hj => h j (by simp [hj]))]
    simp

/-- The boot-disk and volume invariant of the built object, for specs in
which no disk after the first is named "boot". -/
theorem mapper_boot_invariant (s : VMSpec) (h : ∀ d ∈ s.disks.tail, d.name ≠ "boot") :
    (buildDisks s).countP hasBootOrder = 1
    ∧ (∃ j dts, buildDisks s = j :: dts ∧ hasBootOrder j = true)
    ∧ (∃ v vts, buildVolumes s = v :: vts
        ∧ volumeImage v = some (getContainerDiskImage s.guestOSType)
        ∧ ∀ u ∈ vts, isEmptyDefaultVolume u = true) := by
  obtain ⟨cnt, mem, os, disks⟩ := s
  cases disks with
  | nil =>
    refine ⟨rfl, ⟨_, [], rfl, rfl⟩, ⟨_, [], rfl, rfl, by simp⟩⟩
  | cons d rest =>
    simp only [VMSpec.disks, List.tail_cons] at h
    have hdisks : buildDisks ⟨cnt, mem, os, d :: rest⟩
        = .jobj [("name", JValue.jstr d.name), ("disk", JValue.jobj [("bus", JValue.jstr "virtio")]),
            ("bootOrder", JValue.jint 1)] :: buildDisksAux rest 1 := rfl
    have hvols : buildVolumes ⟨cnt, mem, os, d :: rest⟩
        = .jobj [("name", JValue.jstr d.name),
            ("containerDisk", JValue.jobj [("image", JValue.jstr (getContainerDiskImage os))])]
          :: buildVolumesAux os rest 1 := rfl
    refine ⟨?_, ⟨_, _, hdisks, rfl⟩, ⟨_, _, hvols, rfl, ?_⟩⟩
    · rw [hdisks, List.countP_cons]
      have hz : (buildDisksAux rest 1).countP hasBootOrder = 0 :=
        countP_eq_zero_of_false (buildDisksAux_tail_no_boot rest 0 h)
      rw [hz]
      rfl
    · exact buildVolumesAux_tail_empty rest 0 os h

/-! ### Phase derivation theorems -/

/-- With spec.running not explicitly false, status.ready never true,
status.created never explicitly false and a condition scan that matches
nothing, extractVMPhase lands in its fall-through branch. -/
theorem extractVMPhase_fallthrough_pending (vm : JValue)
    (hrunErr : nestedBool vm ["spec", "running"] ≠ .err)
    (hrun : nestedBool vm ["spec", "running"] ≠ .val false)
    (hready : ∀ b, nestedBool vm ["status", "ready"] = .val b → b = false)
    (hcreated : ∀ b, nestedBool vm ["status", "created"] = .val b → b = true)
    (hcond : ∀ cs, nestedSlice vm ["status", "conditions"] = .val cs
      → analyzeVMConditions cs = .unknown) :
    extractVMPhase vm = .ok .pending := by
  have haux : extractVMPhaseAux vm true = .ok .pending := by
    unfold extractVMPhaseAux
    rcases hr : nestedBool vm ["status", "ready"] with _ | b | _ <;>
      rcases hc : nestedBool vm ["status", "created"] with _ | b2 | _ <;>
      rcases hs : nestedSlice vm ["status", "conditions"] with _ | cs | _ <;>
      simp only [hr, hc, hs] <;>
      first
        | rfl
        | simp [hready _ hr, hcreated _ hc, hcond _ hs]
        | simp [hready _ hr, hcreated _ hc]
        | simp [hready _ hr, hcond _ hs]
        | simp [hcreated _ hc, hcond _ hs]
        | simp [hready _ hr]
        | simp [hcreated _ hc]
        | simp [hcond _ hs]
  unfold extractVMPhase
  rcases hrr : nestedBool vm ["spec", "running"] with _ | b | _
  · exact haux
  · cases b
    · exact absurd hrr hrun
    · exact haux
  · exact absurd hrr hrunErr

/-! ### Watcher map invariants -/

theorem wInsert_overwrite_keys (m : WatcherMap) (k : String) (w : Nat) :
    (m.map (fun p => if p.1 == k then (k, w) else p)).map Prod.fst = m.map Prod.fst := by
  induction m with
  | nil => rfl
  | cons p rest ih =>
    simp only [List.map_cons, ih]
    cases hk : (p.1 == k) with
    | true =>
      have hpk : p.1 = k := by simpa using hk
      simp [hk, hpk]
    | false => simp [hk]

theorem keysNodup_wInsert (m : WatcherMap) (k : String) (w : Nat) (h : keysNodup m) :
    keysNodup (wInsert m k w) := by
  unfold wInsert
  cases hany : m.any (fun p => p.1 == k) with
  | true =>
    rw [if_pos rfl]
    unfold keysNodup
    rw [wInsert_overwrite_keys]
    exact h
  | false =>
    rw [if_neg (by simp)]
    unfold keysNodup
    rw [List.map_append]
    have hnotin : k ∉ m.map Prod.fst := by
      intro hmem
      obtain ⟨p, hp, hpk⟩ := List.mem_map.mp hmem
      have : m.any (fun p => p.1 == k) = true :=
        List.any_eq_true.mpr ⟨p, hp, by simp [hpk]⟩
      simp [this] at hany
    have h2 : (m.map Prod.fst).Nodup := h
    simp [List.nodup_append, h2, hnotin]

theorem keysNodup_wRemove (m : WatcherMap) (k : String) (h : keysNodup m) :
    keysNodup (wRemove m k) := by
  have hs : List.Sublist ((wRemove m k).map Prod.fst) (m.map Prod.fst) :=
    (List.filter_sublist m).map Prod.fst
  exact List.Nodup.sublist hs h

theorem keysNodup_applyWOp (m : WatcherMap) (op : WOp) (h : keysNodup m) :
    keysNodup (applyWOp m op) := by
  cases op with
  | register id w => exact keysNodup_wInsert m id w h
  | remove id => exact keysNodup_wRemove m id h
  | stopAll => simp [applyWOp, keysNodup]

theorem keysNodup_runWOps : ∀ (ops : List WOp) (m : WatcherMap),
    keysNodup m → keysNodup (runWOps m ops) := by
  intro ops
  induction ops with
  | nil => intro m h; exact h
  | cons op rest ih => intro m h; exact ih (applyWOp m op) (keysNodup_applyWOp m op h)

/-! ### Claim theorems -/

/-- C1 (counterexample): the claimed decimal exactness fails on the
code.  parseMemorySize converts "2GB" at 1 GB = 2³⁰ bytes, yielding the
byte-count string "2147483648" = 2 × 2³⁰ ≠ 2 × 10⁹, and "512Mi" is
returned upper-cased as "512MI", not unchanged. -/
theorem parseMemorySize_exactness_counterexample :
    parseMemorySize "2GB" = some "2147483648"
    ∧ (2147483648 : Nat) = 2 * 2 ^ 30
    ∧ (2 * 2 ^ 30 : Nat) ≠ 2 * 10 ^ 9
    ∧ parseMemorySize "512Mi" = some "512MI"
    ∧ "512MI" ≠ "512Mi" :=
  ⟨by decide, by norm_num, by norm_num, by decide, by decide⟩

/-- C1 (amended): parseMemorySize maps "2GB" to the plain byte-count
string "2147483648" (GB is converted at 1 GB = 2³⁰ bytes, i.e. treated
as GiB); "512Mi" is returned upper-cased as "512MI"; "512MB" has its
numeral reinterpreted as mebibytes, giving "512Mi"; a bare integer is
interpreted as mebibytes; and "abc" is a validation error. -/
theorem parseMemorySize_observed_behavior :
    parseMemorySize "2GB" = some "2147483648"
    ∧ (2147483648 : Nat) = 2 * 2 ^ 30
    ∧ parseMemorySize "512Mi" = some "512MI"
    ∧ parseMemorySize "512MB" = some "512Mi"
    ∧ parseMemorySize "2048" = some "2048Mi"
    ∧ parseMemorySize "abc" = none :=
  ⟨by decide, by norm_num, by decide, by decide, by decide, by decide⟩

/-- C2 (counterexample): the forward translation does not fail on an
unparseable memory string; VMSpecToVirtualMachine succeeds even though
parseMemorySize rejects "abc". -/
theorem vmSpecToVirtualMachine_unparseable_memory_ok :
    parseMemorySize "abc" = none
    ∧ VMSpecToVirtualMachine ⟨2, "abc", "fedora", [⟨"boot", "10Gi"⟩]⟩ "vm" "id" "ns"
      = .ok (vmObject ⟨2, "abc", "fedora", [⟨"boot", "10Gi"⟩]⟩ "vm" "id" "ns") :=
  ⟨by decide, rfl⟩

/-- C2 (amended): VMSpecToVirtualMachine never fails; when the memory
string cannot be parsed, buildResources silently falls back to the
default "2Gi" memory request. -/
theorem vmSpecToVirtualMachine_never_fails (s : VMSpec) (a b c : String) :
    VMSpecToVirtualMachine s a b c = .ok (vmObject s a b c)
    ∧ (parseMemorySize s.memorySize = none →
        nestedString (vmObject s a b c)
          ["spec", "template", "spec", "domain", "resources", "requests", "memory"] = .val "2Gi") := by
  refine ⟨rfl, fun h => ?_⟩
  rw [fwd_memory_lookup, h]

/-- C2 witness: the amended theorem at a concrete spec whose memory
string "abc" is unparseable. -/
theorem vmSpecToVirtualMachine_never_fails_witness :
    parseMemorySize "abc" = none
    ∧ nestedString (vmObject ⟨2, "abc", "fedora", [⟨"boot", "10Gi"⟩]⟩ "vm" "id" "ns")
        ["spec", "template", "spec", "domain", "resources", "requests", "memory"] = .val "2Gi" :=
  ⟨by decide,
    (vmSpecToVirtualMachine_never_fails ⟨2, "abc", "fedora", [⟨"boot", "10Gi"⟩]⟩ "vm" "id" "ns").2
      (by decide)⟩

/-- C3 (counterexample): the round trip fails for a guest OS that is not
one of the exact lowercase table names (its case is lost), for a zero
vcpu count (defaulted to one), and for an empty disk list (a default
boot disk is invented). -/
theorem roundTrip_fields_counterexample :
    VirtualMachineToVMSpec (vmObject ⟨2, "2Gi", "Ubuntu", [⟨"boot", "10Gi"⟩]⟩ "vm" "id" "ns")
      = .ok ⟨2, "2GI", "ubuntu", [⟨"boot", ""⟩]⟩
    ∧ "ubuntu" ≠ "Ubuntu"
    ∧ VirtualMachineToVMSpec (vmObject ⟨0, "2Gi", "fedora", [⟨"boot", "10Gi"⟩]⟩ "vm" "id" "ns")
      = .ok ⟨1, "2GI", "fedora", [⟨"boot", ""⟩]⟩
    ∧ (1 : Int) ≠ 0
    ∧ VirtualMachineToVMSpec (vmObject ⟨2, "2Gi", "fedora", []⟩ "vm" "id" "ns")
      = .ok ⟨2, "2GI", "fedora", [⟨"boot", ""⟩]⟩
    ∧ ([⟨"boot", ""⟩] : List Disk).map Disk.name ≠ ([] : List Disk).map Disk.name :=
  ⟨rfl, by decide, rfl, by decide, rfl, by decide⟩

/-- C3 witness: the round-trip theorem at a concrete two-disk fedora
spec. -/
theorem roundTrip_fields_witness :
    ∃ vm back,
      VMSpecToVirtualMachine ⟨2, "2Gi", "fedora", [⟨"boot", "10Gi"⟩, ⟨"data", "5Gi"⟩]⟩ "vm" "id" "ns"
        = .ok vm
      ∧ VirtualMachineToVMSpec vm = .ok back
      ∧ back.vcpuCount = (⟨2, "2Gi", "fedora", [⟨"boot", "10Gi"⟩, ⟨"data", "5Gi"⟩]⟩ : VMSpec).vcpuCount
      ∧ back.guestOSType = (⟨2, "2Gi", "fedora", [⟨"boot", "10Gi"⟩, ⟨"data", "5Gi"⟩]⟩ : VMSpec).guestOSType
      ∧ back.disks.map Disk.name
        = (⟨2, "2Gi", "fedora", [⟨"boot", "10Gi"⟩, ⟨"data", "5Gi"⟩]⟩ : VMSpec).disks.map Disk.name :=
  roundTrip_fields ⟨2, "2Gi", "fedora", [⟨"boot", "10Gi"⟩, ⟨"data", "5Gi"⟩]⟩ "vm" "id" "ns"
    (by decide) (by decide) (by decide) (by decide)

/-- C4 (counterexample): a VM-resource status in which running is true,
ready and created are absent and the (empty) condition list matches
nothing is derived as Pending, not Unknown. -/
theorem extractVMPhase_fallthrough_counterexample :
    nestedBool (JValue.jobj [("kind", .jstr "VirtualMachine"),
        ("spec", .jobj [("running", .jbool true)]),
        ("status", .jobj [("conditions", .jarr [])])]) ["spec", "running"] = .val true
    ∧ nestedBool (JValue.jobj [("kind", .jstr "VirtualMachine"),
        ("spec", .jobj [("running", .jbool true)]),
        ("status", .jobj [("conditions", .jarr [])])]) ["status", "ready"] = .missing
    ∧ nestedBool (JValue.jobj [("kind", .jstr "VirtualMachine"),
        ("spec", .jobj [("running", .jbool true)]),
        ("status", .jobj [("conditions", .jarr [])])]) ["status", "created"] = .missing
    ∧ nestedSlice (JValue.jobj [("kind", .jstr "VirtualMachine"),
        ("spec", .jobj [("running", .jbool true)]),
        ("status", .jobj [("conditions", .jarr [])])]) ["status", "conditions"] = .val []
    ∧ analyzeVMConditions [] = .unknown
    ∧ extractVMPhase (JValue.jobj [("kind", .jstr "VirtualMachine"),
        ("spec", .jobj [("running", .jbool true)]),
        ("status", .jobj [("conditions", .jarr [])])]) = .ok .pending
    ∧ VMPhase.pending ≠ VMPhase.unknown :=
  ⟨rfl, rfl, rfl, rfl, rfl, rfl, by decide⟩

/-- C4 witness: the fall-through theorem at the concrete status above. -/
theorem extractVMPhase_fallthrough_pending_witness :
    extractVMPhase (JValue.jobj [("kind", .jstr "VirtualMachine"),
        ("spec", .jobj [("running", .jbool true)]),
        ("status", .jobj [("conditions", .jarr [])])]) = .ok .pending :=
  extractVMPhase_fallthrough_pending _
    (fun h => Nested.noConfusion h)
    (fun h => by injection h with h2; exact Bool.noConfusion h2)
    (fun b hb => Nested.noConfusion hb)
    (fun b hb => Nested.noConfusion hb)
    (fun cs hcs => by injection hcs with h2; rw [← h2]; rfl)

/-- C5 (counterexample): a spec whose second disk is named "boot" yields
two boot-capable disks in the built object, violating the exactly-one
invariant as claimed. -/
theorem mapper_two_boot_disks :
    (buildDisks ⟨1, "1Gi", "fedora", [⟨"a", "5Gi"⟩, ⟨"boot", "5Gi"⟩]⟩).countP hasBootOrder = 2 := by
  decide

/-- C5 (amended): for every spec in which no disk after the first is
named "boot", the built object has exactly one boot-capable disk (the
first entry), its boot volume is backed by the guest-OS-selected
container image, and every other volume is an empty writable volume of
the fixed 10Gi default capacity. -/
theorem mapper_boot_invariant_claim (s : VMSpec) (h : ∀ d ∈ s.disks.tail, d.name ≠ "boot") :
    (buildDisks s).countP hasBootOrder = 1
    ∧ (∃ j dts, buildDisks s = j :: dts ∧ hasBootOrder j = true)
    ∧ (∃ v vts, buildVolumes s = v :: vts
        ∧ volumeImage v = some (getContainerDiskImage s.guestOSType)
        ∧ ∀ u ∈ vts, isEmptyDefaultVolume u = true) :=
  mapper_boot_invariant s h

/-- C5 witness: the invariant at a concrete spec with a boot disk and a
data disk. -/
theorem mapper_boot_invariant_claim_witness :
    (buildDisks ⟨2, "2Gi", "fedora", [⟨"boot", "10Gi"⟩, ⟨"data", "5Gi"⟩]⟩).countP hasBootOrder = 1
    ∧ (∃ j dts, buildDisks ⟨2, "2Gi", "fedora", [⟨"boot", "10Gi"⟩, ⟨"data", "5Gi"⟩]⟩ = j :: dts
        ∧ hasBootOrder j = true)
    ∧ (∃ v vts, buildVolumes ⟨2, "2Gi", "fedora", [⟨"boot", "10Gi"⟩, ⟨"data", "5Gi"⟩]⟩ = v :: vts
        ∧ volumeImage v
          = some (getContainerDiskImage (⟨2, "2Gi", "fedora", [⟨"boot", "10Gi"⟩, ⟨"data", "5Gi"⟩]⟩ : VMSpec).guestOSType)
        ∧ ∀ u ∈ vts, isEmptyDefaultVolume u = true) :=
  mapper_boot_invariant_claim ⟨2, "2Gi", "fedora", [⟨"boot", "10Gi"⟩, ⟨"data", "5Gi"⟩]⟩
    (by decide)

/-- C6: a raw VM status whose spec.running is explicitly false is
derived as Stopped, before status.ready is even consulted. -/
theorem extractVMPhase_running_false_stopped (vm : JValue)
    (h : nestedBool vm ["spec", "running"] = .val false) :
    extractVMPhase vm = .ok .stopped := by
  unfold extractVMPhase
  rw [h]
  rfl

/-- C6 witness: the theorem at a status carrying running=false and
ready=true simultaneously. -/
theorem extractVMPhase_running_false_stopped_witness :
    nestedBool (JValue.jobj [("kind", .jstr "VirtualMachine"),
        ("spec", .jobj [("running", .jbool false)]),
        ("status", .jobj [("ready", .jbool true)])]) ["spec", "running"] = .val false
    ∧ nestedBool (JValue.jobj [("kind", .jstr "VirtualMachine"),
        ("spec", .jobj [("running", .jbool false)]),
        ("status", .jobj [("ready", .jbool true)])]) ["status", "ready"] = .val true
    ∧ extractVMPhase (JValue.jobj [("kind", .jstr "VirtualMachine"),
        ("spec", .jobj [("running", .jbool false)]),
        ("status", .jobj [("ready", .jbool true)])]) = .ok .stopped :=
  ⟨rfl, rfl, extractVMPhase_running_false_stopped _ rfl⟩

/-- C7 (counterexample): the per-VM status-sync service does not
special-case deletion notifications.  On a Deleted watch event for a
tracked identifier whose record still exists, handleVMIEvent maps the
instance's last phase as usual (Running becomes READY, not Stopped) and
keeps the identifier's watch session in the map. -/
theorem handleVMIEvent_deletion_not_stopped :
    handleVMIEvent [("id-1", 1)] ⟨.deleted, some ⟨"vm1", "ns1", "Running"⟩⟩ true "id-1"
      (.found StatusInProgress) true
    = ⟨[("id-1", 1)], some StatusReady, some StatusReady, none⟩
    ∧ StatusReady ≠ "Stopped" :=
  ⟨by decide, by decide⟩

/-- C7 (amended): in the informer-based monitor service, a deletion
notification for a DCM-managed VM whose info extracts successfully
produces exactly one VMEvent, whose phase is Stopped regardless of the
raw status; that monitor has no per-identifier worker to remove.  The
per-VM status-sync service removes a watch session only when the
persisted record is absent or marked deleted, never because the event
was a deletion. -/
theorem handleVMEvent_deleted_stopped (obj : JValue) (info : VMInfo)
    (h1 : isDCMManagedVM obj = true) (h2 : ExtractVMInfo obj = .ok info) :
    handleVMEvent obj "deleted"
      = [⟨info.vmID, info.vmName, info.namespaceStr, VMPhase.stopped.toStr⟩] := by
  unfold handleVMEvent
  rw [h1, h2]
  simp

/-- C7 witness: the amended theorem at a concrete deleted VM whose last
raw status was ready=true (deriving Running before the override). -/
theorem handleVMEvent_deleted_stopped_witness :
    isDCMManagedVM (JValue.jobj [("kind", .jstr "VirtualMachine"),
        ("metadata", .jobj [("name", .jstr "vm1"), ("namespace", .jstr "ns1"),
          ("labels", .jobj [("dcm.project/managed-by", .jstr "dcm"),
            ("dcm.project/dcm-instance-id", .jstr "id-1")])]),
        ("spec", .jobj [("running", .jbool true)]),
        ("status", .jobj [("ready", .jbool true)])]) = true
    ∧ handleVMEvent (JValue.jobj [("kind", .jstr "VirtualMachine"),
        ("metadata", .jobj [("name", .jstr "vm1"), ("namespace", .jstr "ns1"),
          ("labels", .jobj [("dcm.project/managed-by", .jstr "dcm"),
            ("dcm.project/dcm-instance-id", .jstr "id-1")])]),
        ("spec", .jobj [("running", .jbool true)]),
        ("status", .jobj [("ready", .jbool true)])]) "deleted"
      = [⟨"id-1", "vm1", "ns1", "Stopped"⟩] :=
  ⟨rfl, handleVMEvent_deleted_stopped _ ⟨"id-1", "vm1", "ns1", .running⟩ rfl rfl⟩

/-- C8 (counterexample): starting a session for an identifier that
already has one is not a no-op; the stored session handle is
overwritten. -/
theorem wInsert_existing_not_noop :
    wInsert [("a", 1)] "a" 2 = [("a", 2)]
    ∧ ([("a", 2)] : WatcherMap) ≠ [("a", 1)] :=
  ⟨by decide, by decide⟩

/-- C8 (amended): after any sequence of register, remove and stop-all
operations starting from the empty map, the watcher map holds at most
one entry per identifier — it is keyed by the identifier — but
registering a session for an identifier that already has one overwrites
the stored handle rather than being a no-op. -/
theorem watcherMap_unique_sessions :
    (∀ ops : List WOp, keysNodup (runWOps [] ops))
    ∧ wInsert [("a", 1)] "a" 2 = [("a", 2)] :=
  ⟨fun ops => keysNodup_runWOps ops [] (by simp [keysNodup]), by decide⟩

/-- C9: when the store update fails on a delivered event whose phase
differs from the stored status, handleVMIEvent surfaces the error and
leaves the watcher map untouched, and the receive loop's next decision
for a delivered event is to continue the session, independent of the
handler's error. -/
theorem handleVMIEvent_store_failure_continues (w : WatcherMap) (ev : WatchEvent) (vmi : VMIObj)
    (vmIDStr appStatus : String)
    (hobj : ev.object = some vmi)
    (hnotdel : appStatus ≠ StatusDeleted)
    (hchange : appStatus ≠ mapVMIPhaseToAppStatus vmi.phase) :
    handleVMIEvent w ev true vmIDStr (.found appStatus) false
      = ⟨w, none, none, some "failed to update application status in database"⟩
    ∧ watchLoopStep (.recv ev) = .continueLoop := by
  refine ⟨?_, rfl⟩
  unfold handleVMIEvent
  rw [hobj]
  simp [hnotdel, hchange]

/-- C9 witness: the theorem at a concrete Running event against a stored
IN_PROGRESS status, with the store update failing. -/
theorem handleVMIEvent_store_failure_continues_witness :
    handleVMIEvent [("id-2", 7)] ⟨.modified, some ⟨"vm2", "ns2", "Running"⟩⟩ true "id-2"
      (.found StatusInProgress) false
      = ⟨[("id-2", 7)], none, none, some "failed to update application status in database"⟩
    ∧ watchLoopStep (.recv ⟨.modified, some ⟨"vm2", "ns2", "Running"⟩⟩) = .continueLoop :=
  handleVMIEvent_store_failure_continues [("id-2", 7)] ⟨.modified, some ⟨"vm2", "ns2", "Running"⟩⟩
    ⟨"vm2", "ns2", "Running"⟩ "id-2" StatusInProgress rfl (by decide) (by decide)

/-- C10: any input whose trimmed upper-cased form ends in the letter I
is returned by parseMemorySize as that upper-cased string with no
further validation. -/
theorem parseMemorySize_binary_suffix_passthrough (s : String)
    (h : goHasSuffix (goTrimSpace (goToUpper s)) "I" = true) :
    parseMemorySize s = some (goTrimSpace (goToUpper s)) := by
  simp [parseMemorySize, h]

/-- C10 witness: the theorem at the non-numeric input "abcGi", accepted
and returned as "ABCGI". -/
theorem parseMemorySize_binary_suffix_passthrough_witness :
    parseMemorySize "abcGi" = some "ABCGI" := by
  rw [parseMemorySize_binary_suffix_passthrough "abcGi" (by decide)]
  decide

end KVSP
